import Mathlib

/-!
Verification of `marker`'s high-quality text processor
(`marker/processors/high_quality_text.py`) and the two paragraph-wrapping
schema blocks (`marker/schema/blocks/caption.py`,
`marker/schema/blocks/handwriting.py`).

The Python code is shallowly embedded:
* the markup parsing done through `BeautifulSoup(text, 'html.parser')`
  is modelled by an explicit tree type `HNode` together with a parser
  `parseHTML` for the plain-tag fragment of HTML that the processor
  feeds it (text interleaved with `<name>` / `</name>` tags);
* the Gemini model call in `generate` is modelled by an oracle
  `outcome : Nat → CallResult` giving the result of each attempted call;
* `Document` / `PageGroup` plumbing is abstracted away: a `Line` carries
  the fields the processor reads (`polygon`, `page_id`) and its child
  span list (`structure_`, modelling `text_line.structure` with the
  spans registered through `page.add_full_block` inlined).
-/

/-- One `{'type': ..., 'content': ...}` dict appended to `spans` by
`HighQualityTextProcessor.text_to_spans`. -/
structure Fragment where
  type : String
  content : String
deriving Repr, DecidableEq

/-- A node of the tree produced by `BeautifulSoup(text, 'html.parser')`:
either a `NavigableString` or a `Tag` with a name and a list of children. -/
inductive HNode where
  | text (s : String)
  | tag (name : String) (children : List HNode)

mutual
/-- Models `element.get_text()`: the concatenation of every string
descendant of the node, in document order. -/
def getText : HNode → String
  | .text s => s
  | .tag _ cs => getTextList cs

def getTextList : List HNode → String
  | [] => ""
  | n :: ns => getText n ++ getTextList ns
end

/-- Models `element.string`: a `NavigableString` is its own string; a `Tag`
with exactly one child has the string of that child; any other `Tag` has
none. -/
def nodeString : HNode → Option String
  | .text s => some s
  | .tag _ cs =>
    match cs with
    | [c] => nodeString c
    | _ => none

/-- The `tag_types` dict of `text_to_spans`:
`{'b': 'bold', 'i': 'italic', 'math': 'math'}`. -/
def tag_types : String → Option String
  | "b" => some "bold"
  | "i" => some "italic"
  | "math" => some "math"
  | _ => none

/-- The body of the `for element in soup.descendants` loop of
`text_to_spans`, for one element that passed the depth filter: a `Tag`
whose name is in `tag_types` yields a typed fragment holding its
`get_text()`; otherwise, if `element.string` is truthy (present and
non-empty, Python truthiness), the element yields a plain fragment of that
string; otherwise nothing. -/
def emit : HNode → Option Fragment
  | .tag name cs =>
    match tag_types name with
    | some t => some ⟨t, getText (.tag name cs)⟩
    | none =>
      match nodeString (.tag name cs) with
      | some s => if s.isEmpty then none else some ⟨"plain", s⟩
      | none => none
  | .text s => if s.isEmpty then none else some ⟨"plain", s⟩

mutual
/-- All descendants of a node in document order, paired with their depth:
a node at depth `d` has `d` elements in `element.parents` (the soup object
included), so the direct children of the soup sit at depth 1. -/
def descNode (d : Nat) : HNode → List (HNode × Nat)
  | .text s => [(.text s, d)]
  | .tag n cs => (.tag n cs, d) :: descForest (d + 1) cs

def descForest (d : Nat) : List HNode → List (HNode × Nat)
  | [] => []
  | n :: ns => descNode d n ++ descForest d ns
end

/-- `HighQualityTextProcessor.text_to_spans` on an already-parsed soup:
walk `soup.descendants`, skip every element whose parent count is not 1
(`if not len(list(element.parents)) == 1: continue`), and run the loop
body on the rest. -/
def text_to_spans_forest (forest : List HNode) : List Fragment :=
  (descForest 1 forest).filterMap (fun p => if p.2 = 1 then emit p.1 else none)

/-- Tokens of the plain-tag fragment of HTML handled here. -/
inductive Tok where
  | openTag (name : String)
  | closeTag (name : String)
  | textTok (s : String)

/-- Split a character list at the first `>`, returning the characters
before it and the rest after it; `none` when no `>` occurs. -/
def splitAtGt : List Char → Option (List Char × List Char)
  | [] => none
  | c :: rest =>
    if c = '>' then some ([], rest)
    else
      match splitAtGt rest with
      | some (nm, r) => some (c :: nm, r)
      | none => none

/-- Tokenizer for the plain-tag fragment of HTML: `<name>` opens a tag,
`</name>` closes one, everything else is character data. A lone `<` with
no closing `>` is kept as character data. Fuel-driven; each step consumes
at least one character, so fuel `s.length` is enough. -/
def tokenizeAux : Nat → List Char → List Tok
  | 0, _ => []
  | _, [] => []
  | fuel + 1, c :: rest =>
    if c = '<' then
      match splitAtGt rest with
      | none => [.textTok (String.mk (c :: rest))]
      | some (nm, r) =>
        match nm with
        | '/' :: nm2 => .closeTag (String.mk nm2) :: tokenizeAux fuel r
        | _ => .openTag (String.mk nm) :: tokenizeAux fuel r
    else
      .textTok (String.mk (c :: rest.takeWhile (fun ch => ch ≠ '<')))
        :: tokenizeAux fuel (rest.dropWhile (fun ch => ch ≠ '<'))

/-- Close the innermost open element and hand its node to the enclosing
frame (or to the top level when no frame encloses it). The stack holds
`(name, children-so-far-reversed)` frames, innermost first; `top` holds
the completed top-level nodes, reversed. -/
def closeFrame (name : String) (cs : List HNode)
    (stack : List (String × List HNode)) (top : List HNode) :
    List (String × List HNode) × List HNode :=
  let node := HNode.tag name cs.reverse
  match stack with
  | [] => ([], node :: top)
  | (nm2, cs2) :: rest => ((nm2, node :: cs2) :: rest, top)

/-- Close every element still open at end of input, innermost first. -/
def unwind (stack : List (String × List HNode)) (top : List HNode) : List HNode :=
  match stack with
  | [] => top.reverse
  | (nm, cs) :: rest =>
    let n0 := HNode.tag nm cs.reverse
    let final := rest.foldl
      (fun n frame => HNode.tag frame.1 (frame.2.reverse ++ [n])) n0
    top.reverse ++ [final]

/-- Builds the parse forest from the token stream, mirroring
`html.parser` on this fragment: an open tag pushes a frame; character
data joins the innermost open element (or the top level); a close tag
matching some open element closes every element inside it and then that
element, while a close tag matching nothing is ignored; elements still
open at end of input are closed implicitly. Each step either consumes a
token or pops one frame, so fuel `2 * tokens + 1` is enough. -/
def buildAux : Nat → List Tok → List (String × List HNode) → List HNode → List HNode
  | 0, _, stack, top => unwind stack top
  | _ + 1, [], stack, top => unwind stack top
  | fuel + 1, t :: ts, stack, top =>
    match t with
    | .textTok s =>
      match stack with
      | [] => buildAux fuel ts [] (HNode.text s :: top)
      | (nm, cs) :: rest => buildAux fuel ts ((nm, HNode.text s :: cs) :: rest) top
    | .openTag nm => buildAux fuel ts ((nm, []) :: stack) top
    | .closeTag nm =>
      if stack.any (fun f => f.1 = nm) then
        match stack with
        | [] => buildAux fuel ts [] top
        | (nm2, cs) :: rest =>
          let p := closeFrame nm2 cs rest top
          if nm2 = nm then buildAux fuel ts p.1 p.2
          else buildAux fuel (Tok.closeTag nm :: ts) p.1 p.2
      else buildAux fuel ts stack top

/-- Models `BeautifulSoup(text, 'html.parser')` on the plain-tag fragment
of HTML the processor feeds it: the soup's list of top-level nodes. -/
def parseHTML (s : String) : List HNode :=
  let toks := tokenizeAux s.length s.data
  buildAux (2 * toks.length + 1) toks [] []

/-- `HighQualityTextProcessor.text_to_spans`: parse the text and walk the
descendants as above. -/
def text_to_spans (s : String) : List Fragment :=
  text_to_spans_forest (parseHTML s)

/-- A `Span` as constructed by `process_block_rewriting` (the fields
passed to `SpanClass(...)`; `page.add_full_block` registration is
abstracted by storing the span itself in its line's child list). The
polygon is an opaque token. -/
structure Span where
  polygon : Nat
  text : String
  font : String
  font_weight : Nat
  font_size : Nat
  minimum_position : Nat
  maximum_position : Nat
  formats : List String
  page_id : Nat
  text_extraction_method : String
deriving Repr, DecidableEq

/-- A `Line` block as the processor sees it: the fields it reads
(`polygon`, `page_id`) and its child list `structure_` (modelling
`text_line.structure`, with the registered child spans inlined). -/
structure Line where
  polygon : Nat
  page_id : Nat
  structure_ : List Span
deriving Repr, DecidableEq

/-- The body of the `for text_line, corrected_text in zip(...)` loop of
`process_block_rewriting`: clear `text_line.structure`, parse
`corrected_text` with `text_to_spans`, and append one synthesized span
per fragment, adding a newline to the content of the fragment whose index
is `len(corrected_spans) - 1`. -/
def text_line_rewrite (text_line : Line) (corrected_text : String) : Line :=
  let corrected_spans := text_to_spans corrected_text
  { text_line with
    structure_ := corrected_spans.enum.map (fun p =>
      let c := if p.1 = corrected_spans.length - 1 then p.2.content ++ "\n" else p.2.content
      { polygon := text_line.polygon
        text := c
        font := "Unknown"
        font_weight := 0
        font_size := 0
        minimum_position := 0
        maximum_position := 0
        formats := [p.2.type]
        page_id := text_line.page_id
        text_extraction_method := "gemini" }) }

/-- The guard `if corrected_lines and len(corrected_lines) ==
len(extracted_lines)` of `process_block_rewriting` (Python truthiness of
a list is non-emptiness). -/
def corrected_lines_check (corrected_lines : List String) (extracted_count : Nat) : Bool :=
  !corrected_lines.isEmpty && corrected_lines.length == extracted_count

/-- `HighQualityTextProcessor.process_block_rewriting` restricted to its
observable effect on the block's `Line` children. `response` is the
result of `generate` restricted to its `"corrected_lines"` field: `none`
when the returned dict is falsy or lacks the field (so `corrected_lines`
stays `[]`), `some ls` when the field is present with value `ls`. When
the guard passes, each line is rewritten against its corrected text;
otherwise every line is left as it was. -/
def process_block_rewriting (response : Option (List String)) (text_lines : List Line) :
    List Line :=
  let corrected_lines := match response with
    | some ls => ls
    | none => []
  if corrected_lines_check corrected_lines text_lines.length then
    (text_lines.zip corrected_lines).map (fun p => text_line_rewrite p.1 p.2)
  else text_lines

/-- Outcome of one `self.model.generate_content` attempt inside
`generate`, as observed by the surrounding `try`: `ok r` means the call
and the `json.loads` parse both succeeded, with `r` the parsed dict
restricted to its `"corrected_lines"` field; `rateLimited` is a
`ResourceExhausted`; `failed` is any other exception, a parse failure
included. -/
inductive CallResult where
  | ok (r : Option (List String))
  | rateLimited
  | failed

/-- The `while tries < self.max_retries` loop of `generate`, with
`fuel = max_retries - tries` and `tries` the number of rate-limit
failures so far. Returns the result dict (restricted to
`"corrected_lines"`, `none` for the empty dict `{}`), the list of sleep
durations passed to `time.sleep` in order, and the number of
`generate_content` calls made. On `ResourceExhausted` the code does
`tries += 1; wait_time = tries * 2; time.sleep(wait_time)` and loops; on
any other exception it breaks; the loop exit returns `{}`. -/
def generateAux (outcome : Nat → CallResult) : Nat → Nat → Option (List String) × List Nat × Nat
  | 0, _ => (none, [], 0)
  | fuel + 1, tries =>
    match outcome tries with
    | .ok r => (r, [], 1)
    | .rateLimited =>
      let wait_time := (tries + 1) * 2
      let rec2 := generateAux outcome fuel (tries + 1)
      (rec2.1, wait_time :: rec2.2.1, rec2.2.2 + 1)
    | .failed => (none, [], 1)

/-- `HighQualityTextProcessor.generate`: run the retry loop starting at
`tries = 0`. -/
def generate (outcome : Nat → CallResult) (max_retries : Nat) :
    Option (List String) × List Nat × Nat :=
  generateAux outcome max_retries 0

/-- `HighQualityTextProcessor.__init__` after `super().__init__(config)`
has set the attributes: when `high_quality` is false it returns with
`self.model = None`; otherwise a missing `google_api_key` raises
`ValueError("Google API key is not set")`, and a present key configures
the client and constructs the model handle (no request is made). The
result is `self.model`. -/
def processor_init (high_quality : Bool) (google_api_key : Option String)
    (model_name : String) : Except String (Option String) :=
  if !high_quality then .ok none
  else
    match google_api_key with
    | none => .error "Google API key is not set"
    | some _ => .ok (some model_name)

/-- `HighQualityTextProcessor.__call__`: returns whether
`rewrite_blocks` is invoked (false means the call returns at once and no
work is performed). -/
def processor_call (high_quality : Bool) (model : Option String) : Bool :=
  !(!high_quality || model.isNone)

/-- Python's `template.replace("\n", " ")`: with a one-character pattern
this is a per-character substitution. -/
def replace_newlines (s : String) : String :=
  String.mk (s.data.map (fun c => if c = '\n' then ' ' else c))

/-- `Caption.assemble_html`: the superclass-assembled `template` has its
newlines replaced by spaces and is wrapped as `f"<p>{template}</p>"`. -/
def caption_assemble_html (template : String) : String :=
  "<p>" ++ replace_newlines template ++ "</p>"

/-- `Handwriting.assemble_html`: identical body to `Caption`'s. -/
def handwriting_assemble_html (template : String) : String :=
  "<p>" ++ replace_newlines template ++ "</p>"

/-- Whether a string ends with the line terminator `"\n"`. -/
def endsWithNewline (s : String) : Bool :=
  s.data.getLast? == some '\n'

/-! ### Helper lemmas -/

mutual
theorem descNode_depth_le (n : HNode) (d : Nat) :
    ∀ p ∈ descNode d n, d ≤ p.2 := by
  cases n with
  | text s =>
    intro p hp
    simp [descNode] at hp
    simp [hp]
  | tag nm cs =>
    intro p hp
    simp [descNode] at hp
    rcases hp with h | h
    · simp [h]
    · have := descForest_depth_le cs (d + 1) p h
      omega

theorem descForest_depth_le (l : List HNode) (d : Nat) :
    ∀ p ∈ descForest d l, d ≤ p.2 := by
  cases l with
  | nil =>
    intro p hp
    simp [descForest] at hp
  | cons n ns =>
    intro p hp
    simp [descForest] at hp
    rcases hp with h | h
    · exact descNode_depth_le n d p h
    · exact descForest_depth_le ns d p h
end

theorem filterMap_descForest_deep (l : List HNode) (d : Nat) (hd : 2 ≤ d) :
    (descForest d l).filterMap (fun p => if p.2 = 1 then emit p.1 else none) = [] := by
  rw [List.filterMap_eq_nil_iff]
  intro p hp
  have := descForest_depth_le l d p hp
  have h1 : p.2 ≠ 1 := by omega
  simp [h1]

/-- The descendant walk with the parent-count filter visits exactly the
top-level nodes: everything nested deeper contributes nothing. -/
theorem text_to_spans_forest_flat (forest : List HNode) :
    text_to_spans_forest forest = forest.filterMap emit := by
  induction forest with
  | nil => simp [text_to_spans_forest, descForest]
  | cons n ns ih =>
    unfold text_to_spans_forest at *
    rw [descForest, List.filterMap_append, ih]
    cases n with
    | text s =>
      cases h : emit (HNode.text s) <;>
        simp [descNode, List.filterMap_cons, h]
    | tag nm cs =>
      rw [descNode]
      simp only [List.filterMap_cons]
      rw [filterMap_descForest_deep cs 2 (by omega)]
      cases h : emit (HNode.tag nm cs) <;> simp [h]

theorem generateAux_all_rateLimited (fuel tries : Nat) :
    generateAux (fun _ => CallResult.rateLimited) fuel tries
      = (none, (List.range' (tries + 1) fuel).map (fun i => i * 2), fuel) := by
  induction fuel generalizing tries with
  | zero => simp [generateAux]
  | succ f ih =>
    rw [List.range'_succ]
    simp [generateAux, ih (tries + 1)]

theorem generateAux_failed_after (outcome : Nat → CallResult) (k : Nat) :
    ∀ fuel tries, k < fuel →
    (∀ i, i < k → outcome (tries + i) = CallResult.rateLimited) →
    outcome (tries + k) = CallResult.failed →
    generateAux outcome fuel tries
      = (none, (List.range' (tries + 1) k).map (fun i => i * 2), k + 1) := by
  induction k with
  | zero =>
    intro fuel tries hk hrl hf
    cases fuel with
    | zero => omega
    | succ f =>
      have hf0 : outcome tries = CallResult.failed := by simpa using hf
      simp [generateAux, hf0]
  | succ k ih =>
    intro fuel tries hk hrl hf
    cases fuel with
    | zero => omega
    | succ f =>
      have h0 : outcome tries = CallResult.rateLimited := by
        simpa using hrl 0 (by omega)
      have hrec := ih f (tries + 1) (by omega)
        (fun i hi => by
          have := hrl (i + 1) (by omega)
          simpa [Nat.add_assoc, Nat.add_comm 1 i] using this)
        (by
          have : tries + 1 + k = tries + (k + 1) := by omega
          rw [this]
          exact hf)
      rw [List.range'_succ]
      simp [generateAux, h0, hrec]

/-! ### Claim theorems -/

/-- C1, counterexample: with every call rate-limited and `max_retries = 3`,
`generate` sleeps 2, 4 and then 6 seconds — the claimed schedule `[2, 4]`
with no sleep after the third failure does not match the code, which also
sleeps 6 seconds after the third failure before returning `{}`. -/
theorem c1_counterexample :
    generate (fun _ => CallResult.rateLimited) 3 = (none, [2, 4, 6], 3)
      ∧ ([2, 4, 6] : List Nat) ≠ [2, 4] :=
  ⟨rfl, by decide⟩

/-- C1, amended: on consecutive rate-limit failures `generate` sleeps
`n * 2` seconds after the `n`-th failure — including after the final,
`max_retries`-th one — and then returns an empty result; with
`max_retries = 3` the sleeps are 2, 4 and 6 seconds. -/
theorem c1_backoff_schedule (max_retries : Nat) :
    generate (fun _ => CallResult.rateLimited) max_retries
      = (none, (List.range' 1 max_retries).map (fun i => i * 2), max_retries) := by
  simpa [generate] using generateAux_all_rateLimited max_retries 0

/-- C2: when the `k`-th call (after `k` earlier rate-limit failures)
fails with a non-rate-limit error — any exception other than
`ResourceExhausted`, a `json.loads` failure included — `generate` returns
the empty object at once: the sleeps are exactly the `k` backoffs that
preceded the failure (none after it) and exactly `k + 1` calls are made
(none after it). -/
theorem c2_nonretryable_short_circuit (outcome : Nat → CallResult)
    (max_retries k : Nat) (hk : k < max_retries)
    (hrl : ∀ i, i < k → outcome i = CallResult.rateLimited)
    (hf : outcome k = CallResult.failed) :
    generate outcome max_retries
      = (none, (List.range' 1 k).map (fun i => i * 2), k + 1) := by
  have := generateAux_failed_after outcome k max_retries 0 hk
    (fun i hi => by simpa using hrl i hi) (by simpa using hf)
  simpa [generate] using this

/-- Witness for C2: a first-call non-rate-limit failure with
`max_retries = 3` returns the empty result with no sleep and one call. -/
theorem c2_witness :
    generate (fun _ => CallResult.failed) 3 = (none, [], 1) := by
  have := c2_nonretryable_short_circuit (fun _ => CallResult.failed) 3 0
    (by decide) (fun i hi => absurd hi (Nat.not_lt_zero i)) rfl
  simpa using this

/-- C6: constructing the processor with `high_quality = true` and no
`google_api_key` raises `ValueError("Google API key is not set")` during
`__init__`, before any model request (construction performs no request at
all); with `high_quality = false` construction succeeds without a key,
`self.model` stays `None`, and `__call__` returns without doing any
work. -/
theorem c6_construction_guard (model_name : String) :
    processor_init true none model_name = Except.error "Google API key is not set"
      ∧ processor_init false none model_name = Except.ok none
      ∧ processor_call false none = false :=
  ⟨rfl, rfl, rfl⟩

/-- C9: an empty `corrected_lines` list never triggers reconciliation:
`process_block_rewriting` leaves every line unchanged, and the guard
`if corrected_lines and len(corrected_lines) == len(extracted_lines)`
is false for an empty list even when the length equality holds (any
`n`, in particular `n = 0` for a block with zero lines). -/
theorem c9_empty_corrected_lines :
    (∀ text_lines : List Line,
        process_block_rewriting (some []) text_lines = text_lines)
      ∧ (∀ n : Nat, corrected_lines_check [] n = false) := by
  constructor
  · intro text_lines
    simp [process_block_rewriting, corrected_lines_check]
  · intro n
    simp [corrected_lines_check]

/-- C8, counterexample: on assembled text containing a newline, both
`Caption.assemble_html` and `Handwriting.assemble_html` replace the
newline with a space before wrapping, so the result is not the assembled
text wrapped unchanged. -/
theorem c8_counterexample :
    caption_assemble_html "a\nb" = "<p>a b</p>"
      ∧ handwriting_assemble_html "a\nb" = "<p>a b</p>"
      ∧ "<p>a b</p>" ≠ "<p>a\nb</p>" := by
  refine ⟨rfl, rfl, ?_⟩
  decide

/-- C8, amended: both `assemble_html` overrides return the
superclass-assembled text with every newline replaced by a space, wrapped
in a paragraph tag; in particular, on newline-free assembled text the
result is exactly `"<p>" ++ text ++ "</p>"`. -/
theorem c8_paragraph_wrap (template : String) (h : '\n' ∉ template.data) :
    caption_assemble_html template = "<p>" ++ template ++ "</p>"
      ∧ handwriting_assemble_html template = "<p>" ++ template ++ "</p>" := by
  have hmap : template.data.map (fun c => if c = '\n' then ' ' else c)
      = template.data := by
    conv_rhs => rw [← List.map_id template.data]
    apply List.map_congr_left
    intro a ha
    have hne : a ≠ '\n' := fun he => h (he ▸ ha)
    simp [hne]
  have hrepl : replace_newlines template = template := by
    unfold replace_newlines
    rw [hmap]
  constructor
  · unfold caption_assemble_html
    rw [hrepl]
  · unfold handwriting_assemble_html
    rw [hrepl]

/-- Witness for C8: the amended statement at the newline-free assembled
text `"ab"`. -/
theorem c8_witness :
    caption_assemble_html "ab" = "<p>" ++ "ab" ++ "</p>"
      ∧ handwriting_assemble_html "ab" = "<p>" ++ "ab" ++ "</p>" :=
  c8_paragraph_wrap "ab" (by decide)

/-- C3: when the response lacks the `corrected_lines` field (so the local
`corrected_lines` stays `[]`) or the number of corrected lines differs
from the number of extracted lines, `process_block_rewriting` leaves every
line — child structure and spans — exactly as it was; the embedding is a
total function, so no exception is raised on this path. -/
theorem c3_mismatch_leaves_lines (response : Option (List String))
    (text_lines : List Line)
    (h : response = none
      ∨ ∃ cl, response = some cl ∧ cl.length ≠ text_lines.length) :
    process_block_rewriting response text_lines = text_lines := by
  rcases h with h | ⟨cl, hcl, hlen⟩
  · subst h
    simp [process_block_rewriting, corrected_lines_check]
  · subst hcl
    simp [process_block_rewriting, corrected_lines_check, hlen]

/-- Witness for C3: a one-line response against a zero-line block is a
count mismatch and leaves the (empty) line list unchanged. -/
theorem c3_witness :
    process_block_rewriting (some ["a"]) ([] : List Line) = [] :=
  c3_mismatch_leaves_lines (some ["a"]) []
    (Or.inr ⟨["a"], rfl, by decide⟩)

/-- C4: parsing `"<b>foo</b> <math>x=1</math> bar"` yields exactly the
four claimed fragments in order, and for every input string the output
equals the per-top-level-node emission of the parse forest — an element
nested two or more levels below the root contributes no fragment of its
own. -/
theorem c4_markup_round_trip :
    text_to_spans "<b>foo</b> <math>x=1</math> bar"
        = [⟨"bold", "foo"⟩, ⟨"plain", " "⟩, ⟨"math", "x=1"⟩, ⟨"plain", " bar"⟩]
      ∧ ∀ s : String, text_to_spans s = (parseHTML s).filterMap emit := by
  constructor
  · rfl
  · intro s
    exact text_to_spans_forest_flat (parseHTML s)

/-- C7, counterexample: `"<u>a<b>c</b></u>"` contains the top-level tag
`u`, whose name is not in `tag_types` and whose inner content
(`get_text()`) is `"ac"`; yet `text_to_spans` emits no fragment at all
for this input — the unrecognized tag's inner content is not emitted as a
plain fragment. -/
theorem c7_counterexample :
    parseHTML "<u>a<b>c</b></u>"
        = [HNode.tag "u" [HNode.text "a", HNode.tag "b" [HNode.text "c"]]]
      ∧ tag_types "u" = none
      ∧ getText (HNode.tag "u" [HNode.text "a", HNode.tag "b" [HNode.text "c"]])
          = "ac"
      ∧ text_to_spans "<u>a<b>c</b></u>" = [] :=
  ⟨rfl, rfl, rfl, rfl⟩

/-- C7, amended: a top-level tag whose name is not registered in
`tag_types` is never emitted with a non-plain type; it contributes a
single plain fragment holding its `element.string` (the string of its
unique child chain) when that string exists and is non-empty, and
contributes no fragment otherwise. -/
theorem c7_unrecognized_tag (s : String) (pre post : List HNode)
    (name : String) (cs : List HNode)
    (hparse : parseHTML s = pre ++ HNode.tag name cs :: post)
    (hname : tag_types name = none) :
    text_to_spans s
      = text_to_spans_forest pre
        ++ (match nodeString (HNode.tag name cs) with
            | some str => if str.isEmpty then [] else [⟨"plain", str⟩]
            | none => [])
        ++ text_to_spans_forest post := by
  have h1 : text_to_spans s = text_to_spans_forest (parseHTML s) := rfl
  rw [h1, hparse, text_to_spans_forest_flat, List.filterMap_append,
    List.filterMap_cons, ← text_to_spans_forest_flat pre,
    ← text_to_spans_forest_flat post]
  cases hns : nodeString (HNode.tag name cs) with
  | none => simp [emit, hname, hns]
  | some str =>
    cases hemp : str.isEmpty with
    | true => simp [emit, hname, hns, hemp]
    | false => simp [emit, hname, hns, hemp]

/-- Witness for C7: `"<u>hi</u>z"` has the unrecognized top-level tag `u`
with element string `"hi"`, contributing exactly the plain fragment
`"hi"` ahead of the trailing plain text `"z"`. -/
theorem c7_witness :
    text_to_spans "<u>hi</u>z" = [⟨"plain", "hi"⟩, ⟨"plain", "z"⟩] := by
  have := c7_unrecognized_tag "<u>hi</u>z" [] [HNode.text "z"] "u"
    [HNode.text "hi"] rfl rfl
  simpa [text_to_spans_forest, descForest, descNode, emit] using this

theorem enum_mark_last (l : List Fragment) (h : l ≠ []) :
    ∀ k : Nat,
      (List.enumFrom k l).map
          (fun p => if p.1 = k + l.length - 1 then p.2.content ++ "\n" else p.2.content)
        = (l.map Fragment.content).dropLast ++ [(l.getLast h).content ++ "\n"] := by
  induction l with
  | nil => exact absurd rfl h
  | cons f fs ih =>
    intro k
    cases fs with
    | nil =>
      simp [List.enumFrom_cons, List.getLast]
    | cons f2 fs2 =>
      have hpred : (fun p : Nat × Fragment =>
            if p.1 = k + (f :: f2 :: fs2).length - 1
            then p.2.content ++ "\n" else p.2.content)
          = (fun p : Nat × Fragment =>
            if p.1 = (k + 1) + (f2 :: fs2).length - 1
            then p.2.content ++ "\n" else p.2.content) := by
        funext p
        have harith : k + (f :: f2 :: fs2).length - 1
            = (k + 1) + (f2 :: fs2).length - 1 := by
          simp only [List.length_cons]
          omega
        rw [harith]
      rw [hpred, List.enumFrom_cons, List.map_cons,
        ih (by simp) (k + 1), List.getLast_cons (show f2 :: fs2 ≠ [] by simp)]
      have hhead : ¬ k = (k + 1) + (f2 :: fs2).length - 1 := by
        simp only [List.length_cons]
        omega
      rw [if_neg hhead]
      simp

/-- C5, counterexample: the corrected text `"a\n<b>x</b>"` parses to two
fragments, and after span synthesis the first (non-last) span's content
is `"a\n"`, which ends with a line terminator — the code appends a
terminator to the last fragment but never strips one already inside an
earlier fragment. -/
theorem c5_counterexample :
    (text_line_rewrite (Line.mk 0 0 []) "a\n<b>x</b>").structure_.map Span.text
        = ["a\n", "x\n"]
      ∧ endsWithNewline "a\n" = true :=
  ⟨rfl, rfl⟩

/-- C5, amended: for corrected text producing at least one fragment, span
synthesis appends the line terminator to the last fragment's content
only; every earlier span's content is its fragment's parsed content
verbatim — so an earlier span ends with a terminator exactly when its
parsed fragment content already did, and the last span always ends with
one. -/
theorem c5_terminator_placement (text_line : Line) (corrected_text : String)
    (h : text_to_spans corrected_text ≠ []) :
    (text_line_rewrite text_line corrected_text).structure_.map Span.text
      = ((text_to_spans corrected_text).map Fragment.content).dropLast
        ++ [((text_to_spans corrected_text).getLast h).content ++ "\n"] := by
  unfold text_line_rewrite
  rw [List.map_map]
  have hcomp : (Span.text ∘ fun p : Nat × Fragment =>
        Span.mk text_line.polygon
          (if p.1 = (text_to_spans corrected_text).length - 1
           then p.2.content ++ "\n" else p.2.content)
          "Unknown" 0 0 0 0 [p.2.type] text_line.page_id "gemini")
      = (fun p : Nat × Fragment =>
          if p.1 = 0 + (text_to_spans corrected_text).length - 1
          then p.2.content ++ "\n" else p.2.content) := by
    funext p
    simp [Function.comp]
  rw [show (List.enum (α := Fragment)) = List.enumFrom 0 from rfl]
  rw [hcomp]
  exact enum_mark_last (text_to_spans corrected_text) h 0

/-- Witness for C5: `"ab"` parses to one fragment, and the single (last)
span's content is `"ab\n"`. -/
theorem c5_witness :
    (text_line_rewrite (Line.mk 0 0 []) "ab").structure_.map Span.text
      = ["ab\n"] := by
  rw [c5_terminator_placement (Line.mk 0 0 []) "ab" (by decide)]
  rfl

/-- C10: every span synthesized by the reconciliation loop carries its
parent line's polygon and page id, font `"Unknown"`, zero font weight,
size and min/max position, a formats list that is the singleton of some
fragment's type from the parsed corrected text, and extraction method
`"gemini"`; and whenever the guard passes (non-empty corrected lines,
counts equal) every output line of `process_block_rewriting` is exactly
the rewrite of the corresponding input line against its corrected text,
so the property covers every fragment of every corrected line of every
block. -/
theorem c10_span_fields :
    (∀ (text_line : Line) (corrected_text : String),
      ∀ sp ∈ (text_line_rewrite text_line corrected_text).structure_,
        sp.polygon = text_line.polygon ∧ sp.page_id = text_line.page_id
          ∧ sp.font = "Unknown" ∧ sp.font_weight = 0 ∧ sp.font_size = 0
          ∧ sp.minimum_position = 0 ∧ sp.maximum_position = 0
          ∧ sp.text_extraction_method = "gemini"
          ∧ ∃ f ∈ text_to_spans corrected_text, sp.formats = [f.type])
    ∧ (∀ (cl : List String) (text_lines : List Line),
        cl ≠ [] → cl.length = text_lines.length →
        process_block_rewriting (some cl) text_lines
          = (text_lines.zip cl).map (fun p => text_line_rewrite p.1 p.2)) := by
  constructor
  · intro text_line corrected_text sp hsp
    unfold text_line_rewrite at hsp
    simp only [List.mem_map] at hsp
    obtain ⟨p, hp, rfl⟩ := hsp
    obtain ⟨i, f⟩ := p
    have hmem := List.mem_enum hp
    refine ⟨rfl, rfl, rfl, rfl, rfl, rfl, rfl, rfl, f, ?_, rfl⟩
    rw [hmem.2]
    exact List.getElem_mem hmem.1
  · intro cl text_lines hne hlen
    have hchk : corrected_lines_check cl text_lines.length = true := by
      simp [corrected_lines_check, hlen, List.isEmpty_eq_false.mpr hne]
    simp [process_block_rewriting, hchk]

/-- Witness for C10: a one-line block with corrected text `"y"`; the
single synthesized span is `⟨5, "y\n", "Unknown", 0, 0, 0, 0, ["plain"],
8, "gemini"⟩` and the rewritten block is the per-line rewrite. -/
theorem c10_witness :
    process_block_rewriting (some ["y"]) [Line.mk 5 8 []]
        = [text_line_rewrite (Line.mk 5 8 []) "y"]
      ∧ (Span.mk 5 "y\n" "Unknown" 0 0 0 0 ["plain"] 8 "gemini").font
          = "Unknown" :=
  ⟨c10_span_fields.2 ["y"] [Line.mk 5 8 []] (by decide) (by decide),
   (c10_span_fields.1 (Line.mk 5 8 []) "y"
      (Span.mk 5 "y\n" "Unknown" 0 0 0 0 ["plain"] 8 "gemini")
      (by decide)).2.2.1⟩
